import Mathlib

/-!
Verification of the online-learning orchestration layer
(src/ml-service/online_learning.py).

Shallow embedding of the Sample Buffer (`OnlineLearningBuffer`), the Version
Ledger (`ModelVersioning`) and the Retrain Orchestrator (`OnlineModelUpdater`)
from `online_learning.py`, together with proofs of the specified properties.

Modelling conventions:
- A CSV/JSON file on disk is modelled as `Option (List _)`: `none` means the
  file does not exist, `some l` means it exists and holds the rows `l`.
- Timestamps are integers (seconds).  The source compares
  `(now - last).total_seconds() / 3600 >= 24` with real division, which is
  exactly `now - last >= 24 * 3600` over the integers.
- Metric values are carried opaquely (the orchestrator never inspects them);
  a metrics mapping is a list of (name, value) pairs.
- The Training Routine (`train.RiskPredictor`, invoked inside
  `retrain_model`) is an external collaborator: it is a parameter
  `List Sample → Except String Metrics`.  Its data-preparation steps
  (`load_and_prepare_data`, `create_predictive_labels`, `engineer_features`
  in train.py) only add columns and sort rows, so the row count handed to
  `add_version` as `training_samples` is the row count of the persisted
  merged dataset, which `retrain_model` re-reads from `training_data_file`.
-/

namespace OnlineLearning

/-- A metrics mapping (name, value); values are opaque payloads. -/
abbrev Metrics := List (String × Int)

/-- One buffered row of `new_samples.csv` / `training_data.csv`
(columns fixed in `OnlineLearningBuffer._initialize_buffer`). -/
structure Sample where
  timestamp : Int
  location : String
  itemType : String
  crowdLevel : String
  weather : String
  dayType : String
  time : String
  lostCount : Int
  incident_occurred : Int
  reported_at : Int
deriving DecidableEq, Repr

/-- The composite dedup key used by `merge_training_data`:
`subset=['timestamp', 'location', 'itemType']`. -/
def Sample.key (s : Sample) : Int × String × String :=
  (s.timestamp, s.location, s.itemType)

/-- Row equality on the dedup key columns. -/
def sameKey (a b : Sample) : Bool :=
  a.timestamp == b.timestamp && a.location == b.location && a.itemType == b.itemType

/-- Buffer component `OnlineLearningBuffer`: state is the backing file `new_samples.csv`. -/
structure OnlineLearningBuffer where
  buffer_file : Option (List Sample)
deriving DecidableEq, Repr

/-- Source `_initialize_buffer`: creates an empty buffer file only when the file
does not already exist; otherwise it leaves the file untouched. -/
def initialize_buffer (b : OnlineLearningBuffer) : OnlineLearningBuffer :=
  match b.buffer_file with
  | none => ⟨some []⟩
  | some l => ⟨some l⟩

/-- Source `add_sample`: stamps `reported_at` with the current time and appends the
row to the buffer file (creating the file from just this row if absent). -/
def add_sample (b : OnlineLearningBuffer) (sample : Sample) (now : Int) :
    OnlineLearningBuffer :=
  let s := { sample with reported_at := now }
  match b.buffer_file with
  | some l => ⟨some (l ++ [s])⟩
  | none => ⟨some [s]⟩

/-- Source `get_buffer_size`: number of rows in the buffer file, 0 if absent. -/
def get_buffer_size (b : OnlineLearningBuffer) : Nat :=
  match b.buffer_file with
  | some l => l.length
  | none => 0

/-- Source `get_buffer_data`: all buffered rows, `[]` if the file is absent. -/
def get_buffer_data (b : OnlineLearningBuffer) : List Sample :=
  match b.buffer_file with
  | some l => l
  | none => []

/-- Source `clear_buffer`: the source merely calls `_initialize_buffer`, which is a
no-op whenever the buffer file exists. -/
def clear_buffer (b : OnlineLearningBuffer) : OnlineLearningBuffer :=
  initialize_buffer b

/-- One record of `model_version.json` (built in `ModelVersioning.add_version`). -/
structure ModelVersion where
  version : Nat
  timestamp : Int
  metrics : Metrics
  training_samples : Nat
  new_samples_added : Nat
deriving DecidableEq, Repr

/-- Ledger component `ModelVersioning`: the version ledger `model_version.json`. -/
structure ModelVersioning where
  versions : List ModelVersion
deriving DecidableEq, Repr

/-- Source `add_version`: builds the record with version `len(self.versions) + 1`,
appends it, persists, and returns it. -/
def add_version (v : ModelVersioning) (now : Int) (metrics : Metrics)
    (training_samples : Nat) (new_samples : Nat) :
    ModelVersion × ModelVersioning :=
  let ver : ModelVersion :=
    { version := v.versions.length + 1
      timestamp := now
      metrics := metrics
      training_samples := training_samples
      new_samples_added := new_samples }
  (ver, ⟨v.versions ++ [ver]⟩)

/-- Source `get_latest_version`: `self.versions[-1] if self.versions else None`. -/
def get_latest_version (v : ModelVersioning) : Option ModelVersion :=
  v.versions.getLast?

/-- Configured `RETRAIN_THRESHOLD = 10`. -/
def RETRAIN_THRESHOLD : Nat := 10

/-- Configured `AUTO_RETRAIN_INTERVAL_HOURS = 24`, in seconds (see header note on the
real-division comparison in `should_retrain`). -/
def AUTO_RETRAIN_INTERVAL_SECONDS : Int := 24 * 3600

/-- Orchestrator `OnlineModelUpdater`: buffer, ledger, and the two dataset files
`training_data.csv` and `historical_training_data.csv`. -/
structure OnlineModelUpdater where
  buffer : OnlineLearningBuffer
  versioning : ModelVersioning
  training_data_file : Option (List Sample)
  historical_data_file : Option (List Sample)
deriving DecidableEq, Repr

/-- The historical dataset as read by `merge_training_data`
(empty when `training_data.csv` is absent). -/
def historical_dataset (u : OnlineModelUpdater) : List Sample :=
  match u.training_data_file with
  | some l => l
  | none => []

/-- Source `should_retrain`: buffer-size trigger first, then the time trigger
against the latest ledger entry; `False` when the ledger is empty. -/
def should_retrain (u : OnlineModelUpdater) (now : Int) : Bool :=
  let buffer_size := get_buffer_size u.buffer
  if RETRAIN_THRESHOLD ≤ buffer_size then
    true
  else
    match get_latest_version u.versioning with
    | some latest => decide (AUTO_RETRAIN_INTERVAL_SECONDS ≤ now - latest.timestamp)
    | none => false

/-- The retraining decision reasons of the spec's `RetrainDecision`. -/
inductive RetrainReason where
  | SIZE_THRESHOLD
  | TIME_ELAPSED
  | NONE
deriving DecidableEq, Repr

/-- Decision view of `should_retrain` with the branch that fired made explicit: the first
branch (buffer threshold) is SIZE_THRESHOLD, the second (staleness of the
latest ledger entry) is TIME_ELAPSED; all `False` paths are NONE. -/
def should_retrain_decision (u : OnlineModelUpdater) (now : Int) : RetrainReason :=
  if RETRAIN_THRESHOLD ≤ get_buffer_size u.buffer then
    .SIZE_THRESHOLD
  else
    match get_latest_version u.versioning with
    | some latest =>
        if AUTO_RETRAIN_INTERVAL_SECONDS ≤ now - latest.timestamp then
          .TIME_ELAPSED
        else
          .NONE
    | none => .NONE

/-- Embedding of `pandas.drop_duplicates(subset=key, keep='last')`: keep a row iff no
later row has the same key, preserving the order of the kept rows. -/
def dedupKeepLast : List Sample → List Sample
  | [] => []
  | s :: rest =>
      if rest.any (fun t => sameKey s t) then dedupKeepLast rest
      else s :: dedupKeepLast rest

/-- Source `merge_training_data`: returns `(df_combined, new_samples_count)` and the
updated file state.  With a nonempty buffer it concatenates historical +
buffered rows, dedups on the key keeping the last copy, persists the result
as `training_data.csv` and backs it up to `historical_training_data.csv`
only if that backup is absent; with an empty buffer it returns the
historical data unchanged and count 0. -/
def merge_training_data (u : OnlineModelUpdater) :
    List Sample × Nat × OnlineModelUpdater :=
  let df_historical := historical_dataset u
  let df_new := get_buffer_data u.buffer
  let new_samples_count := df_new.length
  if 0 < new_samples_count then
    let df_combined := dedupKeepLast (df_historical ++ df_new)
    let u1 : OnlineModelUpdater :=
      { u with
        training_data_file := some df_combined
        historical_data_file :=
          match u.historical_data_file with
          | none => some df_combined
          | some h => some h }
    (df_combined, new_samples_count, u1)
  else
    (df_historical, 0, u)

/-- The dataset `retrain_model` hands to the Training Routine: after the
merge it re-reads `training_data.csv` (`predictor.load_and_prepare_data(
self.training_data_file)`); the preparation steps preserve the row set. -/
def prepared_dataset (u : OnlineModelUpdater) : List Sample :=
  match (merge_training_data u).2.2.training_data_file with
  | some l => l
  | none => []

/-- The dictionary `retrain_model` returns. -/
structure RetrainResult where
  success : Bool
  message : Option String := none
  error : Option String := none
  version : Option Nat := none
  new_samples_added : Option Nat := none
  total_samples : Option Nat := none
  metrics : Option Metrics := none
  timestamp : Int
deriving DecidableEq, Repr

/-- Source `retrain_model`: merge, bail out with `'No training data available'` on an
empty merged dataset, invoke the Training Routine on the re-read merged
dataset, and on success append a ledger entry (metrics, row count of the
merged dataset, pre-dedup buffer count) and call `clear_buffer`.  An
exception from the Training Routine is caught and returned as a failure
dictionary, leaving buffer and ledger as they were (the merge's file writes
have already happened, as in the source). -/
def retrain_model (u : OnlineModelUpdater)
    (train_routine : List Sample → Except String Metrics) (now : Int) :
    RetrainResult × OnlineModelUpdater :=
  let m := merge_training_data u
  let df_combined0 := m.1
  let new_samples_count := m.2.1
  let u1 := m.2.2
  if df_combined0.length = 0 then
    ({ success := false
       message := some "No training data available"
       timestamp := now }, u1)
  else
    let df_combined :=
      match u1.training_data_file with
      | some l => l
      | none => []
    match train_routine df_combined with
    | .error e =>
        ({ success := false, error := some e, timestamp := now }, u1)
    | .ok json_safe_metrics =>
        let vres := add_version u1.versioning now json_safe_metrics
          df_combined.length new_samples_count
        let u2 : OnlineModelUpdater :=
          { u1 with versioning := vres.2, buffer := clear_buffer u1.buffer }
        ({ success := true
           version := some vres.1.version
           new_samples_added := some new_samples_count
           total_samples := some df_combined.length
           metrics := some json_safe_metrics
           timestamp := now }, u2)

/-- The last buffered/merged row carrying a given dedup key, if any. -/
def lastWithKey (K : Int × String × String) : List Sample → Option Sample
  | [] => none
  | s :: rest =>
      match lastWithKey K rest with
      | some t => some t
      | none => if s.key = K then some s else none

/-- A ledger built from the empty one by a sequence of `add_version` calls
with arguments (now, metrics, training_samples, new_samples). -/
def append_all (v : ModelVersioning) :
    List (Int × Metrics × Nat × Nat) → ModelVersioning
  | [] => v
  | op :: rest => append_all (add_version v op.1 op.2.1 op.2.2.1 op.2.2.2).2 rest

/-- A ModelVersion's timestamp lies within the staleness window of `now`. -/
def withinWindow (now : Int) (v : ModelVersion) : Prop :=
  now - v.timestamp < AUTO_RETRAIN_INTERVAL_SECONDS

/- ### Concrete states used by witnesses and counterexamples -/

/-- A concrete report row (payload fields as in the module's self-test). -/
def mkSample (ts : Int) (loc ity lvl : String) : Sample :=
  { timestamp := ts
    location := loc
    itemType := ity
    crowdLevel := lvl
    weather := "Sunny"
    dayType := "Weekday"
    time := "14:30"
    lostCount := 5
    incident_occurred := 1
    reported_at := 0 }

/-- A concrete metrics mapping for the Training Routine oracle. -/
def demoMetrics : Metrics := [("accuracy", 1), ("f1_score", 1)]

/-- A Training Routine that always succeeds. -/
def okTrain : List Sample → Except String Metrics :=
  fun _ => .ok demoMetrics

/-- A Training Routine that always raises. -/
def failTrain : List Sample → Except String Metrics :=
  fun _ => .error "training failed"

/-- Fresh system state: empty buffer file, empty ledger, no dataset files. -/
def demoEmptyU : OnlineModelUpdater :=
  { buffer := ⟨some []⟩
    versioning := ⟨[]⟩
    training_data_file := none
    historical_data_file := none }

/-- Fresh state whose buffer holds one sample. -/
def demoU1 : OnlineModelUpdater :=
  { demoEmptyU with buffer := ⟨some [mkSample 1 "Library" "phone" "High"]⟩ }

/-- Fresh state whose buffer holds five samples (the spec's two-caller
scenario). -/
def demoU5 : OnlineModelUpdater :=
  { demoEmptyU with
    buffer := ⟨some
      [mkSample 1 "Library" "phone" "High",
       mkSample 2 "Gym" "keys" "Low",
       mkSample 3 "Lab" "bag" "Medium",
       mkSample 4 "Cafeteria" "wallet" "High",
       mkSample 5 "Library" "watch" "Low"]⟩ }

/-- State with one ledger entry at time 0 and a small buffer. -/
def demoStaleU : OnlineModelUpdater :=
  { demoEmptyU with
    versioning := ⟨[{ version := 1, timestamp := 0, metrics := demoMetrics,
                      training_samples := 5, new_samples_added := 5 }]⟩ }

/-- State for the dedup witness: historical row and buffered row share the
key (1, Library, phone) but differ in payload. -/
def demoDedupU : OnlineModelUpdater :=
  { demoEmptyU with
    buffer := ⟨some [mkSample 1 "Library" "phone" "Low"]⟩
    training_data_file := some [mkSample 1 "Library" "phone" "High"] }

/- ### Supporting lemmas -/

/-- The boolean `should_retrain` of the source is `true` exactly when the
decision view fires for some reason. -/
theorem should_retrain_eq_decision (u : OnlineModelUpdater) (now : Int) :
    should_retrain u now
      = decide (should_retrain_decision u now ≠ RetrainReason.NONE) := by
  simp only [should_retrain, should_retrain_decision]
  by_cases h : RETRAIN_THRESHOLD ≤ get_buffer_size u.buffer
  · simp [h]
  · simp only [if_neg h]
    cases get_latest_version u.versioning with
    | none => simp
    | some latest =>
        by_cases hle : AUTO_RETRAIN_INTERVAL_SECONDS ≤ now - latest.timestamp <;>
          simp [hle]

/-- Frame lemma: `merge_training_data` never touches the buffer or the ledger. -/
theorem merge_preserves_buffer_ledger (u : OnlineModelUpdater) :
    (merge_training_data u).2.2.buffer = u.buffer ∧
    (merge_training_data u).2.2.versioning = u.versioning := by
  simp only [merge_training_data]
  split <;> simp

/-- The count `merge_training_data` reports is the buffer size before dedup. -/
theorem merge_count_eq (u : OnlineModelUpdater) :
    (merge_training_data u).2.1 = (get_buffer_data u.buffer).length := by
  by_cases h : 0 < (get_buffer_data u.buffer).length
  · simp [merge_training_data, h]
  · simp [merge_training_data, h]
    omega

/-- An element returned by `getLast?` belongs to the list. -/
theorem getLast?_mem_list {α : Type} (l : List α) (x : α)
    (h : l.getLast? = some x) : x ∈ l := by
  induction l with
  | nil => simp at h
  | cons a t ih =>
    cases t with
    | nil => simp_all
    | cons b t2 =>
      rw [List.getLast?_cons_cons] at h
      exact List.mem_cons_of_mem _ (ih h)

/-- In a ledger whose timestamps are nondecreasing in append order, the last
entry carries the largest timestamp. -/
theorem timestamps_le_getLast (l : List ModelVersion) (x : ModelVersion)
    (hs : l.Pairwise (fun a b => a.timestamp ≤ b.timestamp))
    (hx : l.getLast? = some x) :
    ∀ v ∈ l, v.timestamp ≤ x.timestamp := by
  induction l with
  | nil => simp at hx
  | cons a rest ih =>
    cases rest with
    | nil =>
      simp only [List.getLast?_singleton, Option.some.injEq] at hx
      subst hx
      simp
    | cons b t =>
      rw [List.getLast?_cons_cons] at hx
      rcases List.pairwise_cons.mp hs with ⟨ha, hrest⟩
      intro v hv
      rcases List.mem_cons.mp hv with rfl | hv'
      · exact ha x (getLast?_mem_list _ _ hx)
      · exact ih hrest hx v hv'

/- ### Claim theorems -/

/-- C7: `shouldRetrain()` decides SIZE_THRESHOLD if and only if the buffer
size is at least RETRAIN_THRESHOLD, for every state and every current time
(hence regardless of elapsed time since the last version). -/
theorem size_threshold_iff (u : OnlineModelUpdater) (now : Int) :
    should_retrain_decision u now = RetrainReason.SIZE_THRESHOLD ↔
      RETRAIN_THRESHOLD ≤ get_buffer_size u.buffer := by
  by_cases h : RETRAIN_THRESHOLD ≤ get_buffer_size u.buffer
  · simp [should_retrain_decision, h]
  · refine iff_of_false ?_ h
    simp only [should_retrain_decision, if_neg h]
    cases get_latest_version u.versioning with
    | none => simp
    | some latest =>
        by_cases hle : AUTO_RETRAIN_INTERVAL_SECONDS ≤ now - latest.timestamp <;>
          simp [hle]

/-- C5: a sample appended after the merge-time snapshot is still present in
the buffer after `clear_buffer` runs: `clear_buffer` (via
`_initialize_buffer`) preserves every sample whenever the buffer file
exists, so late-arriving appends are never removed. -/
theorem clear_preserves_late_append (b : OnlineLearningBuffer) (s : Sample)
    (now : Int) :
    { s with reported_at := now } ∈
      get_buffer_data (clear_buffer (add_sample b s now)) := by
  cases hb : b.buffer_file <;>
    simp [add_sample, clear_buffer, initialize_buffer, get_buffer_data, hb]

/-- C10: when both the historical dataset and the buffer are empty, retrain
returns the failure `'No training data available'`, leaves the whole state
(buffer, ledger, files) unchanged, and never invokes the Training Routine
(the outcome is the same for every training routine). -/
theorem retrain_no_data (u : OnlineModelUpdater)
    (tr : List Sample → Except String Metrics) (now : Int)
    (hh : historical_dataset u = []) (hb : get_buffer_data u.buffer = []) :
    (retrain_model u tr now).1.success = false ∧
    (retrain_model u tr now).1.message = some "No training data available" ∧
    (retrain_model u tr now).2 = u ∧
    ∀ tr', retrain_model u tr' now = retrain_model u tr now := by
  have hm : merge_training_data u = ([], 0, u) := by
    simp [merge_training_data, hh, hb]
  refine ⟨?_, ?_, ?_, ?_⟩ <;> simp [retrain_model, hm]

/-- C2: if the Training Routine raises, `retrain_model` returns with the
buffer size and the ledger length exactly as they were before the call: the
error branch neither clears the buffer nor appends a version. -/
theorem retrain_training_failure_frame (u : OnlineModelUpdater)
    (tr : List Sample → Except String Metrics) (now : Int) (e : String)
    (h : tr (prepared_dataset u) = Except.error e) :
    get_buffer_size (retrain_model u tr now).2.buffer
        = get_buffer_size u.buffer ∧
    (retrain_model u tr now).2.versioning.versions.length
        = u.versioning.versions.length := by
  have hframe := merge_preserves_buffer_ledger u
  have hp : tr (match (merge_training_data u).2.2.training_data_file with
      | some l => l
      | none => []) = Except.error e := h
  by_cases h0 : (merge_training_data u).1.length = 0
  · simp [retrain_model, h0, hframe.1, hframe.2]
  · simp [retrain_model, h0, hp, hframe.1, hframe.2]

/-- Witness for C2: the failing Training Routine leaves the one-sample
buffer and the empty ledger untouched. -/
theorem retrain_training_failure_frame_witness :
    get_buffer_size (retrain_model demoU1 failTrain 0).2.buffer
        = get_buffer_size demoU1.buffer ∧
    (retrain_model demoU1 failTrain 0).2.versioning.versions.length
        = demoU1.versioning.versions.length :=
  retrain_training_failure_frame demoU1 failTrain 0 "training failed" rfl

/-- C8: whenever `retrain_model` succeeds, the `new_samples_added` count in
the returned result and in the appended ledger entry is the buffer size
before deduplication. -/
theorem new_samples_recorded_prededup (u : OnlineModelUpdater)
    (tr : List Sample → Except String Metrics) (now : Int)
    (h : (retrain_model u tr now).1.success = true) :
    (retrain_model u tr now).1.new_samples_added
        = some (get_buffer_data u.buffer).length ∧
    ((retrain_model u tr now).2.versioning.versions.getLast?).map
        (fun v => v.new_samples_added)
      = some (get_buffer_data u.buffer).length := by
  have hcnt := merge_count_eq u
  by_cases h0 : (merge_training_data u).1.length = 0
  · simp [retrain_model, h0] at h
  · cases htr : tr (match (merge_training_data u).2.2.training_data_file with
        | some l => l
        | none => []) with
    | error e => simp [retrain_model, h0, htr] at h
    | ok mets =>
        refine ⟨?_, ?_⟩ <;>
          simp [retrain_model, h0, htr, add_version, List.getLast?_concat, hcnt]

/-- Witness for C8: a successful retrain from a one-sample buffer records
`new_samples_added = 1` in both places. -/
theorem new_samples_recorded_prededup_witness :
    (retrain_model demoU1 okTrain 100).1.new_samples_added
        = some (get_buffer_data demoU1.buffer).length ∧
    ((retrain_model demoU1 okTrain 100).2.versioning.versions.getLast?).map
        (fun v => v.new_samples_added)
      = some (get_buffer_data demoU1.buffer).length :=
  new_samples_recorded_prededup demoU1 okTrain 100 (by decide)

/-- Witness for C10 at the fresh empty state. -/
theorem retrain_no_data_witness :
    (retrain_model demoEmptyU okTrain 0).1.success = false ∧
    (retrain_model demoEmptyU okTrain 0).1.message
      = some "No training data available" ∧
    (retrain_model demoEmptyU okTrain 0).2 = demoEmptyU ∧
    ∀ tr', retrain_model demoEmptyU tr' 0 = retrain_model demoEmptyU okTrain 0 :=
  retrain_no_data demoEmptyU okTrain 0 rfl rfl

/-- C4 counterexample: at the fresh state (empty ledger, empty buffer) no
ModelVersion lies within the staleness window — vacuously — and the buffer
is below threshold, yet `should_retrain` does not decide TIME_ELAPSED (the
source returns `False` when the ledger is empty), refuting the claimed
`iff` at this input. -/
theorem time_elapsed_empty_ledger_counterexample :
    get_buffer_size demoEmptyU.buffer < RETRAIN_THRESHOLD ∧
    (∀ v ∈ demoEmptyU.versioning.versions, ¬ withinWindow 0 v) ∧
    should_retrain_decision demoEmptyU 0 ≠ RetrainReason.TIME_ELAPSED ∧
    should_retrain demoEmptyU 0 = false := by
  refine ⟨by decide, ?_, by decide, by decide⟩
  intro v hv
  simp [demoEmptyU] at hv

/-- C4 (amended): for every state with buffer size below RETRAIN_THRESHOLD
whose ledger timestamps are nondecreasing in append order (as produced by
`add_version`), `should_retrain` decides TIME_ELAPSED iff the ledger is
nonempty and no ModelVersion's timestamp lies within the staleness window;
with an empty ledger it never decides TIME_ELAPSED. -/
theorem time_elapsed_iff_no_recent_version (u : OnlineModelUpdater) (now : Int)
    (hsize : get_buffer_size u.buffer < RETRAIN_THRESHOLD)
    (hsorted : u.versioning.versions.Pairwise
      (fun a b => a.timestamp ≤ b.timestamp)) :
    should_retrain_decision u now = RetrainReason.TIME_ELAPSED ↔
      (u.versioning.versions ≠ [] ∧
        ∀ v ∈ u.versioning.versions, ¬ withinWindow now v) := by
  have hnot : ¬ RETRAIN_THRESHOLD ≤ get_buffer_size u.buffer := by omega
  simp only [should_retrain_decision, if_neg hnot]
  cases hl : get_latest_version u.versioning with
  | none =>
    have hnil : u.versioning.versions = [] := by
      simpa [get_latest_version, List.getLast?_eq_none_iff] using hl
    simp [hnil]
  | some latest =>
    have hmem : latest ∈ u.versioning.versions :=
      getLast?_mem_list _ _ hl
    have hne : u.versioning.versions ≠ [] := by
      intro hnil
      rw [hnil] at hmem
      simp at hmem
    constructor
    · intro hdec
      have hstale : AUTO_RETRAIN_INTERVAL_SECONDS ≤ now - latest.timestamp := by
        by_contra hc
        simp [if_neg hc] at hdec
      refine ⟨hne, ?_⟩
      intro v hv
      have hle := timestamps_le_getLast _ _ hsorted hl v hv
      simp only [withinWindow]
      omega
    · rintro ⟨-, hall⟩
      have hlatest := hall latest hmem
      simp only [withinWindow] at hlatest
      have hstale : AUTO_RETRAIN_INTERVAL_SECONDS ≤ now - latest.timestamp := by
        omega
      simp [hstale]

/-- Witness for C4 (amended): one version at time 0, current time two days
later, small buffer — TIME_ELAPSED fires and the right-hand side holds. -/
theorem time_elapsed_iff_no_recent_version_witness :
    should_retrain_decision demoStaleU 172800 = RetrainReason.TIME_ELAPSED ↔
      (demoStaleU.versioning.versions ≠ [] ∧
        ∀ v ∈ demoStaleU.versioning.versions, ¬ withinWindow 172800 v) :=
  time_elapsed_iff_no_recent_version demoStaleU 172800 (by decide)
    (by simp [demoStaleU])

/-- Boolean `sameKey` decides equality of the composite dedup keys. -/
theorem sameKey_iff (a b : Sample) : sameKey a b = true ↔ a.key = b.key := by
  simp [sameKey, Sample.key, and_assoc]

/-- Lemma: `lastWithKey` returns an element of the list carrying the key. -/
theorem lastWithKey_mem (K : Int × String × String) (l : List Sample)
    (s : Sample) (h : lastWithKey K l = some s) : s ∈ l ∧ s.key = K := by
  induction l with
  | nil => simp [lastWithKey] at h
  | cons a rest ih =>
    cases hr : lastWithKey K rest with
    | some t =>
      simp only [lastWithKey, hr] at h
      injection h with h
      subst h
      obtain ⟨hmem, hkey⟩ := ih hr
      exact ⟨List.mem_cons_of_mem _ hmem, hkey⟩
    | none =>
      simp only [lastWithKey, hr] at h
      by_cases hsk : a.key = K
      · rw [if_pos hsk] at h
        injection h with h
        subst h
        exact ⟨List.mem_cons_self _ _, hsk⟩
      · rw [if_neg hsk] at h
        cases h

/-- Lemma: `lastWithKey` is `none` exactly when no element carries the key. -/
theorem lastWithKey_eq_none (K : Int × String × String) (l : List Sample) :
    lastWithKey K l = none ↔ ∀ x ∈ l, x.key ≠ K := by
  induction l with
  | nil => simp [lastWithKey]
  | cons s rest ih =>
    cases hr : lastWithKey K rest with
    | some t =>
      obtain ⟨hmem, hkey⟩ := lastWithKey_mem K rest t hr
      simp only [lastWithKey, hr]
      constructor
      · intro hc
        cases hc
      · intro hall
        exact absurd hkey (hall t (List.mem_cons_of_mem _ hmem))
    | none =>
      by_cases hsk : s.key = K
      · simp only [lastWithKey, hr, if_pos hsk]
        constructor
        · intro hc
          cases hc
        · intro hall
          exact absurd hsk (hall s (List.mem_cons_self _ _))
      · simp only [lastWithKey, hr, if_neg hsk]
        constructor
        · intro _ x hx hxk
          rcases List.mem_cons.mp hx with rfl | hx'
          · exact hsk hxk
          · exact (ih.mp hr) x hx' hxk
        · intro _
          trivial

/-- Lemma: `lastWithKey` over an append prefers the second list. -/
theorem lastWithKey_append (K : Int × String × String) (l1 l2 : List Sample) :
    lastWithKey K (l1 ++ l2) =
      match lastWithKey K l2 with
      | some t => some t
      | none => lastWithKey K l1 := by
  induction l1 with
  | nil =>
    cases h2 : lastWithKey K l2 <;> simp [lastWithKey, h2]
  | cons a rest ih =>
    cases h2 : lastWithKey K l2 <;>
      cases hr : lastWithKey K rest <;>
        simp [lastWithKey, ih, h2, hr]

/-- The key-K rows surviving `dedupKeepLast` are exactly the last row of the
input carrying key K (pandas `keep='last'`). -/
theorem dedup_filter_key (K : Int × String × String) (l : List Sample) :
    (dedupKeepLast l).filter (fun s => decide (s.key = K)) =
      (lastWithKey K l).toList := by
  induction l with
  | nil => simp [dedupKeepLast, lastWithKey]
  | cons s rest ih =>
    by_cases hany : rest.any (fun t => sameKey s t) = true
    · rw [show dedupKeepLast (s :: rest) = dedupKeepLast rest by
        simp [dedupKeepLast, hany]]
      rw [ih]
      cases hr : lastWithKey K rest with
      | some t => simp [lastWithKey, hr]
      | none =>
        have hall := (lastWithKey_eq_none K rest).mp hr
        by_cases hsk : s.key = K
        · exfalso
          rcases List.any_eq_true.mp hany with ⟨t, ht, hkey⟩
          have htk : t.key = K := by
            rw [← (sameKey_iff s t).mp hkey]
            exact hsk
          exact hall t ht htk
        · simp [lastWithKey, hr, hsk]
    · rw [show dedupKeepLast (s :: rest) = s :: dedupKeepLast rest by
        simp [dedupKeepLast, hany]]
      rw [List.filter_cons]
      by_cases hsk : s.key = K
      · rw [if_pos (by simpa using hsk)]
        have hall : ∀ x ∈ rest, x.key ≠ K := by
          intro x hx hxk
          exact hany (List.any_eq_true.mpr
            ⟨x, hx, (sameKey_iff s x).mpr (hsk.trans hxk.symm)⟩)
        have hr : lastWithKey K rest = none :=
          (lastWithKey_eq_none K rest).mpr hall
        rw [ih, hr]
        simp [lastWithKey, hr, hsk]
      · rw [if_neg (by simpa using hsk), ih]
        cases hr : lastWithKey K rest with
        | some t => simp [lastWithKey, hr]
        | none => simp [lastWithKey, hr, hsk]

/-- C6: if the historical dataset holds a row at key K and the buffer holds
a row at the same key K, the merged dataset contains exactly one row at K,
namely the most-recently-buffered row at K. -/
theorem merge_dedup_unique_key (u : OnlineModelUpdater)
    (K : Int × String × String)
    (_hh : ∃ x ∈ historical_dataset u, x.key = K)
    (hb : ∃ y ∈ get_buffer_data u.buffer, y.key = K) :
    ∃ s, lastWithKey K (get_buffer_data u.buffer) = some s ∧
      s ∈ get_buffer_data u.buffer ∧ s.key = K ∧
      (merge_training_data u).1.filter (fun t => decide (t.key = K)) = [s] := by
  obtain ⟨y, hy, hyk⟩ := hb
  have hlen : 0 < (get_buffer_data u.buffer).length := by
    cases hbd : get_buffer_data u.buffer with
    | nil => rw [hbd] at hy; simp at hy
    | cons a t => simp
  cases hlb : lastWithKey K (get_buffer_data u.buffer) with
  | none => exact absurd hyk ((lastWithKey_eq_none _ _).mp hlb y hy)
  | some s =>
    obtain ⟨hmem, hkey⟩ := lastWithKey_mem _ _ _ hlb
    refine ⟨s, rfl, hmem, hkey, ?_⟩
    have hcomb : (merge_training_data u).1
        = dedupKeepLast (historical_dataset u ++ get_buffer_data u.buffer) := by
      simp [merge_training_data, hlen]
    rw [hcomb, dedup_filter_key, lastWithKey_append, hlb]
    simp

/-- Witness for C6: historical and buffered rows share key
(1, Library, phone); the merged dataset keeps only the buffered copy. -/
theorem merge_dedup_unique_key_witness :
    ∃ s, lastWithKey (1, "Library", "phone")
        (get_buffer_data demoDedupU.buffer) = some s ∧
      s ∈ get_buffer_data demoDedupU.buffer ∧
      s.key = (1, "Library", "phone") ∧
      (merge_training_data demoDedupU).1.filter
        (fun t => decide (t.key = (1, "Library", "phone"))) = [s] :=
  merge_dedup_unique_key demoDedupU (1, "Library", "phone")
    ⟨mkSample 1 "Library" "phone" "High", by decide, by decide⟩
    ⟨mkSample 1 "Library" "phone" "Low", by decide, by decide⟩

/-- Version numbers accumulated by `append_all`, for any starting ledger. -/
theorem append_all_map_version (ops : List (Int × Metrics × Nat × Nat)) :
    ∀ v : ModelVersioning,
      (append_all v ops).versions.map (fun x => x.version)
        = v.versions.map (fun x => x.version)
          ++ List.range' (v.versions.length + 1) ops.length := by
  induction ops with
  | nil =>
    intro v
    simp [append_all]
  | cons op rest ih =>
    intro v
    simp only [append_all]
    rw [ih]
    simp [add_version, List.range'_succ]

/-- C9: starting from the empty ledger, any sequence of `add_version` calls
yields version numbers forming the contiguous strictly increasing sequence
1, 2, ..., n in append order; moreover each `add_version` assigns version
`len(existing) + 1`, returns the created record, and only appends (every
prior entry is preserved unchanged as a prefix). -/
theorem ledger_append_only_contiguous (ops : List (Int × Metrics × Nat × Nat)) :
    ((append_all ⟨[]⟩ ops).versions.map (fun x => x.version)
        = List.range' 1 ops.length) ∧
    ∀ (v : ModelVersioning) (now : Int) (metrics : Metrics) (ts ns : Nat),
      (add_version v now metrics ts ns).1.version = v.versions.length + 1 ∧
      (add_version v now metrics ts ns).2.versions
        = v.versions ++ [(add_version v now metrics ts ns).1] := by
  refine ⟨?_, ?_⟩
  · simpa using append_all_map_version ops ⟨[]⟩
  · intro v now metrics ts ns
    exact ⟨rfl, rfl⟩

/-- C3 (failing-input evaluation): a successful retrain from a one-sample
buffer appends ledger version 1 carrying the metrics, the merged dataset
size and the new-sample count — but the buffer still holds its sample
afterwards (`clear_buffer` never empties an existing buffer file), so the
claimed postcondition `buffer.size() == 0` fails. -/
theorem retrain_success_buffer_not_cleared :
    (retrain_model demoU1 okTrain 100).1.success = true ∧
    (retrain_model demoU1 okTrain 100).2.versioning.versions.map
        (fun v => v.version) = [1] ∧
    ((retrain_model demoU1 okTrain 100).2.versioning.versions.getLast?).map
        (fun v => (v.metrics, v.training_samples, v.new_samples_added))
      = some (demoMetrics, 1, 1) ∧
    get_buffer_size (retrain_model demoU1 okTrain 100).2.buffer = 1 := by
  decide

/-- C1 (failing-input evaluation): `retrain_model` has no mutual exclusion,
so for two concurrent callers the schedule in which the second enters after
the first completes is permitted — and under it both callers return
`success = true` with fresh versions 1 and 2, instead of exactly one
succeeding while the other blocks (returning the same version) or is
rejected. -/
theorem concurrent_retrain_both_succeed :
    ((retrain_model demoU5 okTrain 100).1.success = true ∧
      (retrain_model demoU5 okTrain 100).1.version = some 1) ∧
    ((retrain_model (retrain_model demoU5 okTrain 100).2 okTrain 101).1.success
        = true ∧
      (retrain_model (retrain_model demoU5 okTrain 100).2 okTrain 101).1.version
        = some 2) := by
  decide

end OnlineLearning
